import Mathlib

/-!
Verification of the generic PostgreSQL data layer (`database/data.py`).

The data layer is embedded shallowly:

* SQL text is modelled as `List Char`; `pyStrip` models Python's `str.strip`
  over the ASCII whitespace characters.
* The regular expression `\b(SELECT|INSERT|UPDATE|DELETE|WITH)\b` compiled
  with `re.IGNORECASE` is embedded as the executable scanner `keywordFound`
  (`matchWordAt` / `searchFrom`); the separate predicate `KeywordAsWord`
  states the same property the way the specification words it (the string
  decomposes around a whole-word, case-insensitive occurrence of one of the
  five keywords) and the two are proved equivalent.
* A parameter map is an insertion-ordered association list
  `List (String × α)`; Python's `dict` preserves insertion order and the
  code only ever reads `params.values()` and `len(params)`.
* The effects of psycopg2 are captured by an `Oracle`: the outcome of
  `cursor.execute` (an exception, or a success together with
  `cursor.description`/`fetchall`) and the outcome of `conn.commit`.
  The pool (`SimpleConnectionPool`, minconn 1 / maxconn 10) is modelled by
  its idle/in-use occupancy counters.
* `sp_execute` returns the final state, a trace of pool/execution events,
  and either the returned dictionary or the raised exception (`Except`).
-/

/-- Python `str.strip` whitespace set (ASCII range). -/
def isPySpace (c : Char) : Bool :=
  c = ' ' || c = '\t' || c = '\n' || c = '\r' || c = '\x0b' || c = '\x0c'

/-- `s.strip()`: drop whitespace from both ends. -/
def pyStrip (s : List Char) : List Char :=
  ((s.dropWhile isPySpace).reverse.dropWhile isPySpace).reverse

/-- A regex word character `\w` (ASCII range): alphanumeric or underscore. -/
def isWordChar (c : Char) : Bool :=
  c.isAlphanum || c = '_'

/-- The keyword alternatives of the classifier regex in `Query._build_sql`. -/
def sqlKeywords : List (List Char) :=
  [("SELECT").data, ("INSERT").data, ("UPDATE").data, ("DELETE").data, ("WITH").data]

/-- Case-insensitive character comparison (`re.IGNORECASE`, ASCII). -/
def ciEq (a b : Char) : Bool :=
  a.toUpper == b.toUpper

/-- `matchWordAt w s`: the pattern `w` matches at the head of `s`,
case-insensitively, followed by a word boundary. -/
def matchWordAt : List Char → List Char → Bool
  | [], [] => true
  | [], c :: _ => !isWordChar c
  | _ :: _, [] => false
  | a :: w, c :: s => ciEq a c && matchWordAt w s

/-- `searchFrom w prev s`: the pattern `w` matches at some position of `s`
with a word boundary on each side; `prev` records whether the character
just before `s` is a word character. -/
def searchFrom (w : List Char) : Bool → List Char → Bool
  | prev, [] => !prev && matchWordAt w []
  | prev, c :: s => (!prev && matchWordAt w (c :: s)) || searchFrom w (isWordChar c) s

/-- Embedding of `re.search` for `\b(SELECT|INSERT|UPDATE|DELETE|WITH)\b`
with `re.IGNORECASE` over the whole string. -/
def keywordFound (s : List Char) : Bool :=
  sqlKeywords.any (fun w => searchFrom w false s)

/-- Specification-side statement of keyword containment: the string splits
as `a ++ w ++ b` where `w` is (up to case) one of the SQL keywords and the
neighbouring characters, when present, are not word characters. -/
def KeywordAsWord (s : List Char) : Prop :=
  ∃ a w b, s = a ++ w ++ b ∧ w.map Char.toUpper ∈ sqlKeywords ∧
    (∀ c, a.getLast? = some c → isWordChar c = false) ∧
    (∀ c, b.head? = some c → isWordChar c = false)

/-- Specification-side classifier: literal SQL iff the trimmed spec contains
one of the keywords as a whole word (case-insensitively) or contains the
character `(`. -/
def SpecLiteralSQL (s : List Char) : Prop :=
  KeywordAsWord s ∨ '(' ∈ s

/-- `', '.join(xs)`. -/
def joinSep (sep : List Char) : List (List Char) → List Char
  | [] => []
  | [x] => x
  | x :: y :: xs => x ++ sep ++ joinSep sep (y :: xs)

/-- `matchWordAt` succeeds exactly on a case-insensitive copy of the pattern
followed by a word boundary. -/
theorem matchWordAt_iff (w s : List Char) :
    matchWordAt w s = true ↔
      ∃ u b, s = u ++ b ∧ u.map Char.toUpper = w.map Char.toUpper ∧
        (∀ c, b.head? = some c → isWordChar c = false) := by
  induction w generalizing s with
  | nil =>
    cases s with
    | nil =>
      constructor
      · intro _
        exact ⟨[], [], rfl, rfl, fun c hc => by simp at hc⟩
      · intro _
        rfl
    | cons c s' =>
      constructor
      · intro h
        refine ⟨[], c :: s', rfl, rfl, fun x hx => ?_⟩
        simp only [List.head?_cons, Option.some.injEq] at hx
        subst hx
        simpa [matchWordAt] using h
      · rintro ⟨u, b, hs, hu, hb⟩
        have hu0 : u = [] := List.map_eq_nil_iff.mp hu
        subst hu0
        simp only [List.nil_append] at hs
        subst hs
        simpa [matchWordAt] using hb c rfl
  | cons a w ih =>
    cases s with
    | nil =>
      constructor
      · intro h
        simp [matchWordAt] at h
      · rintro ⟨u, b, hs, hu, hb⟩
        cases u with
        | nil => simp at hu
        | cons x u' => simp at hs
    | cons c s' =>
      simp only [matchWordAt, Bool.and_eq_true]
      constructor
      · rintro ⟨hci, hm⟩
        obtain ⟨u, b, hs, hu, hb⟩ := (ih s').mp hm
        have hca : c.toUpper = a.toUpper := (beq_iff_eq.mp hci).symm
        refine ⟨c :: u, b, ?_, ?_, hb⟩
        · rw [List.cons_append, hs]
        · rw [List.map_cons, List.map_cons, hca, hu]
      · rintro ⟨u, b, hs, hu, hb⟩
        cases u with
        | nil => simp at hu
        | cons x u' =>
          simp only [List.map_cons, List.cons.injEq] at hu
          simp only [List.cons_append, List.cons.injEq] at hs
          obtain ⟨hcx, hs'⟩ := hs
          subst hcx
          refine ⟨beq_iff_eq.mpr hu.1.symm, (ih s').mpr ⟨u', b, hs', hu.2, hb⟩⟩

/-- `searchFrom` succeeds exactly when the pattern matches at some split of
the string, with a non-word character (or the string edge, as recorded by
`p`) on the left. -/
theorem searchFrom_iff (w : List Char) (p : Bool) (s : List Char) :
    searchFrom w p s = true ↔
      ∃ a r, s = a ++ r ∧ matchWordAt w r = true ∧
        (a = [] → p = false) ∧ (∀ c, a.getLast? = some c → isWordChar c = false) := by
  induction s generalizing p with
  | nil =>
    simp only [searchFrom, Bool.and_eq_true, Bool.not_eq_true']
    constructor
    · rintro ⟨hp, hm⟩
      exact ⟨[], [], rfl, hm, fun _ => hp, fun c hc => by simp at hc⟩
    · rintro ⟨a, r, hs, hm, hpf, _⟩
      obtain ⟨ha, hr⟩ := List.append_eq_nil.mp hs.symm
      subst ha; subst hr
      exact ⟨hpf rfl, hm⟩
  | cons c s' ih =>
    simp only [searchFrom, Bool.or_eq_true, Bool.and_eq_true, Bool.not_eq_true', ih]
    constructor
    · rintro (⟨hp, hm⟩ | ⟨a, r, hs, hm, hpf, hlast⟩)
      · exact ⟨[], c :: s', rfl, hm, fun _ => hp, fun x hx => by simp at hx⟩
      · refine ⟨c :: a, r, by rw [List.cons_append, hs], hm, by simp, ?_⟩
        intro x hx
        cases a with
        | nil =>
          simp only [List.getLast?_singleton, Option.some.injEq] at hx
          subst hx
          exact hpf rfl
        | cons y a' =>
          rw [List.getLast?_cons_cons] at hx
          exact hlast x hx
    · rintro ⟨a, r, hs, hm, hpf, hlast⟩
      cases a with
      | nil =>
        simp only [List.nil_append] at hs
        subst hs
        exact Or.inl ⟨hpf rfl, hm⟩
      | cons x a' =>
        simp only [List.cons_append, List.cons.injEq] at hs
        obtain ⟨hcx, hs'⟩ := hs
        subst hcx
        refine Or.inr ⟨a', r, hs', hm, ?_, ?_⟩
        · intro ha'
          subst ha'
          exact hlast c (by simp)
        · intro y hy
          refine hlast y ?_
          cases a' with
          | nil => simp at hy
          | cons z a'' => rw [List.getLast?_cons_cons]; exact hy

/-- Each keyword is written in upper case. -/
theorem sqlKeywords_toUpper_fixed : ∀ w ∈ sqlKeywords, w.map Char.toUpper = w := by decide

/-- The executable scanner agrees with the specification-side predicate. -/
theorem keywordFound_iff (s : List Char) : keywordFound s = true ↔ KeywordAsWord s := by
  unfold keywordFound KeywordAsWord
  rw [List.any_eq_true]
  constructor
  · rintro ⟨w, hw, hsf⟩
    rw [searchFrom_iff] at hsf
    obtain ⟨a, r, hs, hm, _, hlast⟩ := hsf
    rw [matchWordAt_iff] at hm
    obtain ⟨u, b, hr, hu, hhead⟩ := hm
    refine ⟨a, u, b, ?_, ?_, hlast, hhead⟩
    · rw [hs, hr, List.append_assoc]
    · rw [hu, sqlKeywords_toUpper_fixed w hw]; exact hw
  · rintro ⟨a, u, b, hs, hmem, hlast, hhead⟩
    refine ⟨u.map Char.toUpper, hmem, ?_⟩
    rw [searchFrom_iff]
    refine ⟨a, u ++ b, by rw [hs, List.append_assoc], ?_, fun _ => rfl, hlast⟩
    rw [matchWordAt_iff]
    exact ⟨u, b, rfl, by rw [sqlKeywords_toUpper_fixed _ hmem], hhead⟩

instance (s : List Char) : Decidable (KeywordAsWord s) :=
  decidable_of_iff (keywordFound s = true) (keywordFound_iff s)

instance (s : List Char) : Decidable (SpecLiteralSQL s) := by
  unfold SpecLiteralSQL; infer_instance

namespace Query

/-- Embedding of `Query._build_sql`.  Mirrors, line by line:
`sp_trim = sp.strip() if sp else ''`;
`values = list(params.values()) if params else []`;
the classifier `sql_keywords.search(sp_trim) or '(' in sp_trim`;
and the two f-strings of the routine-name branch. -/
def _build_sql {α : Type} (sp : List Char) (params : List (String × α)) :
    List Char × List α :=
  let sp_trim := if sp = [] then [] else pyStrip sp
  let values := if params.isEmpty then [] else params.map Prod.snd
  let sql_to_execute :=
    if keywordFound sp_trim || sp_trim.contains '(' then
      sp_trim
    else
      if params.isEmpty then
        ("SELECT * FROM ").data ++ sp_trim ++ ("()").data
      else
        ("SELECT * FROM ").data ++ sp_trim ++ ("(").data
          ++ joinSep (", ").data (params.map (fun _ => ("%s").data)) ++ (")").data
  (sql_to_execute, values)

end Query

/-- Errors raised around an execution: pool exhaustion at `getconn`, or a
database error (from `cursor.execute` or `conn.commit`). -/
inductive Err : Type
  | poolExhausted : Err
  | dbError : String → Err
deriving DecidableEq

/-- Occupancy counters of the `SimpleConnectionPool`: connections sitting
idle in the pool and connections currently lent out. -/
structure PoolState : Type where
  idle : Nat
  inUse : Nat
deriving DecidableEq

/-- A newly created pool (`minconn=1`): one idle connection. -/
def freshPool : PoolState := ⟨1, 0⟩

/-- `maxconn=10` in `Query._get_pool`. -/
def maxconn : Nat := 10

/-- `pool.getconn()`: hand out an idle connection, or create a new one while
under `maxconn`, or raise `PoolError`. -/
def getconn (p : PoolState) : Except Err PoolState :=
  if 0 < p.idle then Except.ok ⟨p.idle - 1, p.inUse + 1⟩
  else if p.idle + p.inUse < maxconn then Except.ok ⟨p.idle, p.inUse + 1⟩
  else Except.error Err.poolExhausted

/-- `pool.putconn(conn)`: return the lent connection to the idle set. -/
def putconn (p : PoolState) : PoolState := ⟨p.idle + 1, p.inUse - 1⟩

/-- The state held by the `Query` singleton: `self._pool`, `None` until the
first use and after `close()`. -/
structure QueryState : Type where
  pool : Option PoolState
deriving DecidableEq

/-- A fetched row, as the `dict` made from a `RealDictRow`: column name to
value, in column order. -/
abbrev Row (α : Type) : Type := List (String × α)

/-- The dictionary `sp_execute` builds (`error`/`excepcion`/`recordsets`). -/
structure ResultDict (α : Type) : Type where
  error : Option Err
  excepcion : Option Err
  recordsets : Option (List (Row α))
deriving DecidableEq

/-- The behaviour of the database on this call: the outcome of
`cursor.execute` — an exception, or success together with
`cursor.description` (`some rows` when a result set is describable, with
`rows` the rows `fetchall` returns; `none` for DML without `RETURNING`) —
and the outcome of `conn.commit`. -/
structure Oracle (α : Type) : Type where
  execResult : Except Err (Option (List (Row α)))
  commitErr : Option Err

/-- Observable pool/execution events of one call. -/
inductive Event (α : Type) : Type
  | acquire : Event α
  | release : Event α
  | exec : List Char → List α → Event α

/-- Recognize an acquire event. -/
def isAcquire {α : Type} : Event α → Bool
  | Event.acquire => true
  | _ => false

/-- Recognize a release event. -/
def isRelease {α : Type} : Event α → Bool
  | Event.release => true
  | _ => false

namespace Query

/-- Embedding of `Query._get_pool`: reuse `self._pool`, else create the
pool (minconn 1, maxconn 10) and store it. -/
def _get_pool (st : QueryState) : QueryState × PoolState :=
  match st.pool with
  | some p => (st, p)
  | none => (⟨some freshPool⟩, freshPool)

/-- Embedding of `Query.close`: `if self._pool: self._pool.closeall();
self._pool = None`. -/
def close (st : QueryState) : QueryState :=
  match st.pool with
  | some _ => ⟨none⟩
  | none => st

/-- Embedding of `Query.sp_execute`.  Returns the final singleton state, the
trace of pool/execution events, and either the returned dictionary or the
raised exception. -/
def sp_execute {α : Type} (o : Oracle α) (st : QueryState) (params : List (String × α))
    (sp : List Char) (auto_close : Bool) :
    QueryState × List (Event α) × Except Err (ResultDict α) :=
  -- try: sql_query, values = self._build_sql(sp, params)
  let built := _build_sql sp params
  -- with self._get_connection() as conn:
  --   (pool = self._get_pool(); conn = pool.getconn(); try: yield conn
  --    finally: pool.putconn(conn))
  let stp := _get_pool st
  let run : QueryState × List (Event α) × Except Err (ResultDict α) :=
    match getconn stp.2 with
    | Except.error e =>
        -- getconn raised before a connection was acquired; the except-block
        -- of sp_execute builds its dict and re-raises the original exception
        (stp.1, [], Except.error e)
    | Except.ok p1 =>
        -- with conn.cursor(cursor_factory=extras.RealDictCursor) as cursor:
        --   cursor.execute(sql_query, values)
        let body : Except Err (ResultDict α) :=
          match o.execResult with
          | Except.error e => Except.error e
          | Except.ok desc =>
              -- try: conn.commit() / except Exception: pass —
              -- the commit outcome is inspected and discarded either way
              let afterCommit : Except Err (ResultDict α) :=
                -- if cursor.description: recordsets = [dict(row) for row in
                -- cursor.fetchall()] else: recordsets = []
                Except.ok ⟨none, none, some (match desc with
                  | some rows => rows
                  | none => [])⟩
              match o.commitErr with
              | some _ => afterCommit
              | none => afterCommit
        -- context-manager finally: pool.putconn(conn) on every exit path
        (⟨some (putconn p1)⟩,
         [Event.acquire, Event.exec built.1 built.2, Event.release],
         body)
  -- except Exception as err: a dict with error fields is built, then the
  -- original exception is re-raised, so run's error passes through unchanged
  -- finally: if auto_close: self.close() (errors from close() swallowed)
  if auto_close then (close run.1, run.2.1, run.2.2) else run

end Query

/-- One callback invocation of `sp_execute_param`. -/
inductive CbCall (α : Type) : Type
  | onResult : ResultDict α → CbCall α
  | onError : Err → CbCall α

namespace Query

/-- Embedding of `Query.sp_execute_param`: run `sp_execute`; on success call
the callback (when given) with the result and return it; on failure call the
callback (when given) with the error and re-raise it.  `cb` records whether
a callback was supplied; its invocations are returned as a trace. -/
def sp_execute_param {α : Type} (o : Oracle α) (st : QueryState)
    (params : List (String × α)) (sp : List Char) (cb : Bool) (auto_close : Bool) :
    QueryState × List (Event α) × List (CbCall α) × Except Err (ResultDict α) :=
  let r := sp_execute o st params sp auto_close
  match r.2.2 with
  | Except.ok res => (r.1, r.2.1, if cb then [CbCall.onResult res] else [], Except.ok res)
  | Except.error e => (r.1, r.2.1, if cb then [CbCall.onError e] else [], Except.error e)

end Query

/-! ### General lemmas about the embedded definitions -/

/-- `sp.strip() if sp else ''` agrees with plain stripping. -/
theorem trim_if_eq (sp : List Char) : (if sp = [] then [] else pyStrip sp) = pyStrip sp := by
  by_cases h : sp = []
  · subst h; rfl
  · rw [if_neg h]

/-- `list(params.values()) if params else []` agrees with taking the values
of the map in insertion order. -/
theorem values_if_eq {α : Type} (params : List (String × α)) :
    (if params.isEmpty then [] else params.map Prod.snd) = params.map Prod.snd := by
  cases params <;> simp

/-- A constant map produces one copy per entry. -/
theorem map_const_eq_replicate {α β : Type} (x : β) (l : List α) :
    l.map (fun _ => x) = List.replicate l.length x := by
  induction l with
  | nil => rfl
  | cons a l ih => simp [List.replicate, ih]

/-- The boolean condition of `_build_sql` agrees with the
specification-side classifier. -/
theorem classifier_iff (t : List Char) :
    (keywordFound t || t.contains '(') = true ↔ SpecLiteralSQL t := by
  rw [Bool.or_eq_true, keywordFound_iff]
  unfold SpecLiteralSQL
  constructor
  · rintro (h | h)
    · exact Or.inl h
    · exact Or.inr (by simpa using h)
  · rintro (h | h)
    · exact Or.inl h
    · exact Or.inr (by simpa using h)

/-- On a spec classified as literal SQL, `_build_sql` returns the trimmed
spec verbatim with the map's values in insertion order. -/
theorem build_sql_literal {α : Type} (sp : List Char) (params : List (String × α))
    (h : SpecLiteralSQL (pyStrip sp)) :
    Query._build_sql sp params = (pyStrip sp, params.map Prod.snd) := by
  have hc : (keywordFound (pyStrip sp) || (pyStrip sp).contains '(') = true :=
    (classifier_iff _).mpr h
  simp only [Query._build_sql, trim_if_eq, values_if_eq, hc, if_true]

/-- On a spec classified as a routine name, `_build_sql` synthesizes
`SELECT * FROM <name>(<placeholders>)` with one `%s` placeholder per map
entry (empty parens for the empty map). -/
theorem build_sql_routine {α : Type} (sp : List Char) (params : List (String × α))
    (h : ¬ SpecLiteralSQL (pyStrip sp)) :
    Query._build_sql sp params =
      (("SELECT * FROM ").data ++ pyStrip sp ++ ("(").data
         ++ joinSep (", ").data (List.replicate params.length ("%s").data) ++ (")").data,
       params.map Prod.snd) := by
  have hnk : ¬ KeywordAsWord (pyStrip sp) := fun hk => h (Or.inl hk)
  have hnp : ¬ ('(' ∈ pyStrip sp) := fun hp => h (Or.inr hp)
  have hkw : keywordFound (pyStrip sp) = false :=
    Bool.eq_false_iff.mpr (fun hb => hnk ((keywordFound_iff _).mp hb))
  have hpar : (pyStrip sp).contains '(' = false :=
    Bool.eq_false_iff.mpr (fun hb => hnp (by simpa using hb))
  have hopen : ("(" : String).data = ['('] := rfl
  have hclose : (")" : String).data = [')'] := rfl
  have hboth : ("()" : String).data = ['(', ')'] := rfl
  cases params with
  | nil =>
    simp [Query._build_sql, trim_if_eq, values_if_eq, hkw, hpar, hnp, joinSep,
      hopen, hclose, hboth, List.append_assoc]
  | cons q qs =>
    simp [Query._build_sql, trim_if_eq, values_if_eq, hkw, hpar, hnp,
      map_const_eq_replicate, List.replicate_succ]

/-- `getconn` only ever fails with pool exhaustion. -/
theorem getconn_error_eq (p : PoolState) (e : Err) (h : getconn p = Except.error e) :
    e = Err.poolExhausted := by
  unfold getconn at h
  split at h
  · simp at h
  · split at h
    · simp at h
    · simpa using (Except.error.injEq _ _ |>.mp h).symm

/-- With an idle connection available, `getconn` hands it out. -/
theorem getconn_idle (p : PoolState) (h : 0 < p.idle) :
    getconn p = Except.ok ⟨p.idle - 1, p.inUse + 1⟩ := by
  unfold getconn; rw [if_pos h]

/-- The value `sp_execute` returns (or the exception it raises) as a
function of the pool and oracle outcomes. -/
theorem sp_execute_result_eq {α : Type} (o : Oracle α) (st : QueryState)
    (params : List (String × α)) (sp : List Char) (ac : Bool) :
    (Query.sp_execute o st params sp ac).2.2 =
      match getconn (Query._get_pool st).2 with
      | Except.error e => Except.error e
      | Except.ok _ =>
        match o.execResult with
        | Except.error e => Except.error e
        | Except.ok desc => Except.ok ⟨none, none, some (desc.getD [])⟩ := by
  unfold Query.sp_execute
  cases hg : getconn (Query._get_pool st).2 with
  | error e => cases ac <;> simp [hg]
  | ok p1 =>
    cases he : o.execResult with
    | error e => cases hcm : o.commitErr <;> cases ac <;> simp [hg, he, hcm]
    | ok desc => cases hcm : o.commitErr <;> cases ac <;> cases desc <;> simp [hg, he, hcm]

/-- The event trace of `sp_execute`. -/
theorem sp_execute_events_eq {α : Type} (o : Oracle α) (st : QueryState)
    (params : List (String × α)) (sp : List Char) (ac : Bool) :
    (Query.sp_execute o st params sp ac).2.1 =
      match getconn (Query._get_pool st).2 with
      | Except.error _ => []
      | Except.ok _ => [Event.acquire,
          Event.exec (Query._build_sql sp params).1 (Query._build_sql sp params).2,
          Event.release] := by
  unfold Query.sp_execute
  cases hg : getconn (Query._get_pool st).2 with
  | error e => cases ac <;> simp [hg]
  | ok p1 => cases ac <;> simp [hg]

/-- The final singleton state of `sp_execute`. -/
theorem sp_execute_state_eq {α : Type} (o : Oracle α) (st : QueryState)
    (params : List (String × α)) (sp : List Char) (ac : Bool) :
    (Query.sp_execute o st params sp ac).1 =
      (if ac then Query.close else id)
        (match getconn (Query._get_pool st).2 with
         | Except.error _ => (Query._get_pool st).1
         | Except.ok p1 => ⟨some (putconn p1)⟩) := by
  unfold Query.sp_execute
  cases hg : getconn (Query._get_pool st).2 with
  | error e => cases ac <;> simp [hg]
  | ok p1 => cases ac <;> simp [hg]

/-! ### Claim theorems -/

/-- Claim C1, divergence exhibited at a failing input: when statement
execution succeeds and the subsequent `conn.commit()` raises, `sp_execute`
returns the success dictionary — the commit failure is consumed by the
inner `try/except: pass` and never becomes the call's reported error.
(When execution itself fails, the failure does propagate unchanged, since
the commit is never reached; second conjunct.) -/
theorem c1_commit_failure_swallowed :
    (Query.sp_execute
        (⟨Except.ok (some [[("glucose", (95 : Nat))]]),
          some (Err.dbError "commit failed")⟩ : Oracle Nat)
        ⟨some freshPool⟩ [] ("sp_ins_glucose").data false).2.2 =
      Except.ok ⟨none, none, some [[("glucose", 95)]]⟩ ∧
    (Query.sp_execute
        (⟨Except.error (Err.dbError "exec failed"),
          some (Err.dbError "commit failed")⟩ : Oracle Nat)
        ⟨some freshPool⟩ [] ("sp_ins_glucose").data false).2.2 =
      Except.error (Err.dbError "exec failed") :=
  ⟨rfl, rfl⟩

/-- Claim C2, counterexample: a statement spec that trims to the empty
string is not treated as a usage error; `_build_sql` synthesizes exactly
`SELECT * FROM ()` and `sp_execute` hands that text to execution. -/
theorem c2_empty_spec_counterexample :
    Query._build_sql ([] : List Char) ([] : List (String × Nat)) =
      (("SELECT * FROM ()").data, []) ∧
    (Query.sp_execute (⟨Except.ok (some []), none⟩ : Oracle Nat)
        ⟨some freshPool⟩ [] [] false).2.1 =
      [Event.acquire, Event.exec (("SELECT * FROM ()").data) [], Event.release] ∧
    (Query.sp_execute (⟨Except.ok (some []), none⟩ : Oracle Nat)
        ⟨some freshPool⟩ [] [] false).2.2 =
      Except.ok ⟨none, none, some []⟩ :=
  ⟨rfl, rfl, rfl⟩

/-- Claim C2 as amended: for every spec that trims to the empty string,
the executor does not reject the call; `_build_sql` synthesizes
`SELECT * FROM (<placeholders>)` (with one placeholder per parameter-map
entry) around the empty name and passes it on. -/
theorem c2_empty_spec_not_rejected {α : Type} (sp : List Char)
    (params : List (String × α)) (h : pyStrip sp = []) :
    Query._build_sql sp params =
      (("SELECT * FROM ").data ++ ("(").data
         ++ joinSep (", ").data (List.replicate params.length ("%s").data) ++ (")").data,
       params.map Prod.snd) := by
  have hns : ¬ SpecLiteralSQL (pyStrip sp) := by
    rw [h]; decide
  rw [build_sql_routine sp params hns, h]
  simp

/-- Witness for C2's amended theorem at the all-blank spec. -/
theorem c2_witness :
    pyStrip ("  ").data = [] ∧
    Query._build_sql ("  ").data [("a", (1 : Nat))] = (("SELECT * FROM (%s)").data, [1]) := by
  refine ⟨by decide, ?_⟩
  exact c2_empty_spec_not_rejected ("  ").data [("a", (1 : Nat))] (by decide)

/-- Claim C3: `_build_sql` classifies the trimmed spec as literal SQL
exactly when it contains one of SELECT, INSERT, UPDATE, DELETE, WITH as a
whole word (case-insensitively) or contains the character `(`; a literal
spec is used verbatim with the map's values as positional arguments, and a
routine name is wrapped as `SELECT * FROM <name>(<placeholders>)` with
exactly one placeholder per map entry — empty parens for the empty map. -/
theorem c3_sql_shape_classification {α : Type} (sp : List Char)
    (params : List (String × α)) :
    (SpecLiteralSQL (pyStrip sp) →
      Query._build_sql sp params = (pyStrip sp, params.map Prod.snd)) ∧
    (¬ SpecLiteralSQL (pyStrip sp) →
      Query._build_sql sp params =
        (("SELECT * FROM ").data ++ pyStrip sp ++ ("(").data
           ++ joinSep (", ").data (List.replicate params.length ("%s").data) ++ (")").data,
         params.map Prod.snd)) :=
  ⟨build_sql_literal sp params, build_sql_routine sp params⟩

/-- Witness for C3: a routine name is synthesized, literal SQL is used
verbatim. -/
theorem c3_witness :
    Query._build_sql ("get_user_by_id").data [("id", (1 : Nat))] =
      (("SELECT * FROM get_user_by_id(%s)").data, [1]) ∧
    Query._build_sql ("SELECT * FROM users WHERE name = %s").data [("name", (2 : Nat))] =
      (("SELECT * FROM users WHERE name = %s").data, [2]) := by
  constructor
  · exact (c3_sql_shape_classification ("get_user_by_id").data
      [("id", (1 : Nat))]).2 (by decide)
  · exact (c3_sql_shape_classification ("SELECT * FROM users WHERE name = %s").data
      [("name", (2 : Nat))]).1 (by decide)

/-- Claim C4: the bind-argument list is the map's values in insertion
order (never sorted by key); the keys influence only the placeholder
count, so two maps of equal size produce identical statement text; and
`sp_execute` passes exactly these values to execution. -/
theorem c4_insertion_order_binding {α : Type} (sp : List Char)
    (p1 p2 : List (String × α)) (hlen : p1.length = p2.length) :
    (Query._build_sql sp p1).2 = p1.map Prod.snd ∧
    (Query._build_sql sp p1).1 = (Query._build_sql sp p2).1 ∧
    (∀ (o : Oracle α) (st : QueryState) (ac : Bool) (pl : PoolState),
      st.pool = some pl → 0 < pl.idle →
      (Query.sp_execute o st p1 sp ac).2.1 =
        [Event.acquire,
         Event.exec (Query._build_sql sp p1).1 (p1.map Prod.snd),
         Event.release]) := by
  have hval : (Query._build_sql sp p1).2 = p1.map Prod.snd := by
    simp only [Query._build_sql, values_if_eq]
  have hempty : p1.isEmpty = p2.isEmpty := by
    cases p1 <;> cases p2 <;> simp_all
  refine ⟨hval, ?_, ?_⟩
  · simp only [Query._build_sql, map_const_eq_replicate, hlen, hempty]
  · intro o st ac pl hp hidle
    rw [sp_execute_events_eq]
    simp [Query._get_pool, hp, getconn_idle pl hidle, hval]

/-- Witness for C4: two maps with the same keys in swapped insertion order
bind values in insertion order and produce the same statement text. -/
theorem c4_witness :
    (Query._build_sql ("ins_rec").data [("b", (10 : Nat)), ("a", 20)]).2 = [10, 20] ∧
    (Query._build_sql ("ins_rec").data [("b", (10 : Nat)), ("a", 20)]).1 =
      (Query._build_sql ("ins_rec").data [("a", (20 : Nat)), ("b", 10)]).1 ∧
    (Query.sp_execute (⟨Except.ok (some []), none⟩ : Oracle Nat) ⟨some freshPool⟩
        [("b", 10), ("a", 20)] ("ins_rec").data false).2.1 =
      [Event.acquire,
       Event.exec (Query._build_sql ("ins_rec").data [("b", (10 : Nat)), ("a", 20)]).1 [10, 20],
       Event.release] := by
  obtain ⟨h1, h2, h3⟩ := c4_insertion_order_binding ("ins_rec").data
    [("b", (10 : Nat)), ("a", 20)] [("a", (20 : Nat)), ("b", 10)] (by decide)
  exact ⟨h1, h2, h3 _ ⟨some freshPool⟩ false freshPool rfl (by decide)⟩

/-- Claim C5: on every exit path, the acquired connection is released back
to the pool exactly once — the trace holds equally many releases as
acquires (namely one) — and, absent the auto-close teardown option, the
pool's occupancy (idle and in-use counters) returns to its pre-call
value. -/
theorem c5_connection_released {α : Type} (o : Oracle α) (st : QueryState)
    (params : List (String × α)) (sp : List Char) (ac : Bool) (pool0 : PoolState)
    (hp : st.pool = some pool0) (hidle : 0 < pool0.idle) :
    ((Query.sp_execute o st params sp ac).2.1).countP isRelease =
      ((Query.sp_execute o st params sp ac).2.1).countP isAcquire ∧
    ((Query.sp_execute o st params sp ac).2.1).countP isAcquire = 1 ∧
    (ac = false → ((Query.sp_execute o st params sp ac).1).pool = some pool0) := by
  have hev : (Query.sp_execute o st params sp ac).2.1 =
      [Event.acquire,
       Event.exec (Query._build_sql sp params).1 (Query._build_sql sp params).2,
       Event.release] := by
    rw [sp_execute_events_eq]
    simp [Query._get_pool, hp, getconn_idle pool0 hidle]
  refine ⟨?_, ?_, ?_⟩
  · rw [hev]; simp [List.countP_cons, isAcquire, isRelease]
  · rw [hev]; simp [List.countP_cons, isAcquire]
  · intro hac
    subst hac
    rw [sp_execute_state_eq]
    obtain ⟨pi, pu⟩ := pool0
    simp [Query._get_pool, hp, getconn_idle ⟨pi, pu⟩ hidle, putconn,
      Nat.sub_add_cancel hidle]

/-- Witness for C5 at a concrete pool with one idle connection. -/
theorem c5_witness :
    ((⟨some ⟨1, 0⟩⟩ : QueryState).pool = some ⟨1, 0⟩) ∧ (0 < (⟨1, 0⟩ : PoolState).idle) ∧
    (((Query.sp_execute (⟨Except.ok (some []), none⟩ : Oracle Nat)
        ⟨some ⟨1, 0⟩⟩ [] [] false).2.1).countP isRelease =
      ((Query.sp_execute (⟨Except.ok (some []), none⟩ : Oracle Nat)
        ⟨some ⟨1, 0⟩⟩ [] [] false).2.1).countP isAcquire ∧
    ((Query.sp_execute (⟨Except.ok (some []), none⟩ : Oracle Nat)
        ⟨some ⟨1, 0⟩⟩ [] [] false).2.1).countP isAcquire = 1 ∧
    (false = false → ((Query.sp_execute (⟨Except.ok (some []), none⟩ : Oracle Nat)
        ⟨some ⟨1, 0⟩⟩ [] [] false).1).pool = some ⟨1, 0⟩)) :=
  ⟨rfl, by decide,
   c5_connection_released (⟨Except.ok (some []), none⟩ : Oracle Nat)
     ⟨some ⟨1, 0⟩⟩ [] [] false ⟨1, 0⟩ rfl (by decide)⟩

/-- Claim C6: on a successful execution, `recordsets` is the fetched rows
when the cursor exposes a describable result set, and the empty list —
never `None` and never an error — when it does not. -/
theorem c6_rows_iff_describable {α : Type} (o : Oracle α) (st : QueryState)
    (params : List (String × α)) (sp : List Char) (ac : Bool)
    (d : Option (List (Row α))) (pool0 : PoolState)
    (hd : o.execResult = Except.ok d) (hp : st.pool = some pool0)
    (hidle : 0 < pool0.idle) :
    (Query.sp_execute o st params sp ac).2.2 =
      Except.ok ⟨none, none, some (d.getD [])⟩ := by
  rw [sp_execute_result_eq]
  simp [Query._get_pool, hp, getconn_idle pool0 hidle, hd]

/-- Witness for C6: a result-producing statement yields its rows; DML
without RETURNING yields the empty row list, not an error. -/
theorem c6_witness :
    (Query.sp_execute (⟨Except.ok (some [[("id", (7 : Nat))]]), none⟩ : Oracle Nat)
        ⟨some ⟨1, 0⟩⟩ [] [] false).2.2 =
      Except.ok ⟨none, none, some [[("id", 7)]]⟩ ∧
    (Query.sp_execute (⟨Except.ok none, none⟩ : Oracle Nat)
        ⟨some ⟨1, 0⟩⟩ [] [] false).2.2 =
      Except.ok ⟨none, none, some []⟩ := by
  constructor
  · exact c6_rows_iff_describable (⟨Except.ok (some [[("id", (7 : Nat))]]), none⟩ : Oracle Nat)
      ⟨some ⟨1, 0⟩⟩ [] [] false (some [[("id", 7)]]) ⟨1, 0⟩ rfl rfl (by decide)
  · exact c6_rows_iff_describable (⟨Except.ok none, none⟩ : Oracle Nat)
      ⟨some ⟨1, 0⟩⟩ [] [] false none ⟨1, 0⟩ rfl rfl (by decide)

/-- Claim C7: `close()` is idempotent — a second call is a no-op on an
already-reset state — it leaves the pool field unset, and the next
`_get_pool` re-creates a fresh pool from the current configuration. -/
theorem c7_close_idempotent (st : QueryState) :
    Query.close (Query.close st) = Query.close st ∧
    (Query.close st).pool = none ∧
    Query._get_pool (Query.close st) = (⟨some freshPool⟩, freshPool) := by
  obtain ⟨p⟩ := st
  cases p <;> simp [Query.close, Query._get_pool]

/-- Claim C8: `sp_execute_param` is a wrapper around `sp_execute` with
identical final state, event trace and result/raised error; the callback,
when supplied, is invoked exactly once — with the result on success and
with the error on failure. -/
theorem c8_callback_wrapper_equiv {α : Type} (o : Oracle α) (st : QueryState)
    (params : List (String × α)) (sp : List Char) (cb ac : Bool) :
    (Query.sp_execute_param o st params sp cb ac).1 =
      (Query.sp_execute o st params sp ac).1 ∧
    (Query.sp_execute_param o st params sp cb ac).2.1 =
      (Query.sp_execute o st params sp ac).2.1 ∧
    (Query.sp_execute_param o st params sp cb ac).2.2.2 =
      (Query.sp_execute o st params sp ac).2.2 ∧
    (Query.sp_execute_param o st params sp cb ac).2.2.1 =
      (match (Query.sp_execute o st params sp ac).2.2 with
       | Except.ok r => if cb then [CbCall.onResult r] else []
       | Except.error e => if cb then [CbCall.onError e] else []) := by
  unfold Query.sp_execute_param
  cases h : (Query.sp_execute o st params sp ac).2.2 <;> simp [h]

/-- Claim C9: `sp_execute` never returns a failure envelope — every
dictionary it actually returns has `error = None`, `excepcion = None` and
a non-`None` `recordsets` — and every failure is raised as the original
error value (pool exhaustion from `getconn`, or the statement-execution
error itself). -/
theorem c9_no_failure_envelope {α : Type} (o : Oracle α) (st : QueryState)
    (params : List (String × α)) (sp : List Char) (ac : Bool) :
    (∀ r, (Query.sp_execute o st params sp ac).2.2 = Except.ok r →
        r.error = none ∧ r.excepcion = none ∧ r.recordsets.isSome = true) ∧
    (∀ e, (Query.sp_execute o st params sp ac).2.2 = Except.error e →
        e = Err.poolExhausted ∨ o.execResult = Except.error e) := by
  rw [sp_execute_result_eq]
  cases hg : getconn (Query._get_pool st).2 with
  | error e0 =>
    refine ⟨?_, ?_⟩
    · intro r hr
      simp at hr
    · intro e he
      have h1 : e = e0 := by simpa using he.symm
      subst h1
      exact Or.inl (getconn_error_eq _ _ hg)
  | ok p1 =>
    cases he : o.execResult with
    | error e1 =>
      refine ⟨?_, ?_⟩
      · intro r hr
        simp at hr
      · intro e h
        have h1 : e = e1 := by simpa using h.symm
        subst h1
        exact Or.inr rfl
    | ok desc =>
      refine ⟨?_, ?_⟩
      · intro r hr
        have h1 : r = ⟨none, none, some (desc.getD [])⟩ := by simpa using hr.symm
        subst h1
        exact ⟨rfl, rfl, rfl⟩
      · intro e h
        simp at h

/-- Witness for C9 at a concrete successful call. -/
theorem c9_witness :
    ((⟨none, none, some []⟩ : ResultDict Nat).error = none ∧
     (⟨none, none, some []⟩ : ResultDict Nat).excepcion = none ∧
     (⟨none, none, some ([] : List (Row Nat))⟩ : ResultDict Nat).recordsets.isSome = true) :=
  (c9_no_failure_envelope (⟨Except.ok (some []), none⟩ : Oracle Nat)
    ⟨some ⟨1, 0⟩⟩ [] [] false).1 ⟨none, none, some []⟩ rfl

/-- Claim C10: a trimmed spec containing `)` but no `(` and no whole-word
SQL keyword is still classified as a routine name and wrapped in
`SELECT * FROM <spec>(...)` — the classifier's parenthesis test looks only
for the `(` character. -/
theorem c10_closing_paren_still_routine {α : Type} (sp : List Char)
    (params : List (String × α)) (h1 : ')' ∈ pyStrip sp)
    (h2 : '(' ∉ pyStrip sp) (h3 : ¬ KeywordAsWord (pyStrip sp)) :
    Query._build_sql sp params =
      (("SELECT * FROM ").data ++ pyStrip sp ++ ("(").data
         ++ joinSep (", ").data (List.replicate params.length ("%s").data) ++ (")").data,
       params.map Prod.snd) :=
  build_sql_routine sp params (fun hs => hs.elim h3 h2)

/-- Witness for C10 at the spec `"foo)"`. -/
theorem c10_witness :
    ')' ∈ pyStrip ("foo)").data ∧ '(' ∉ pyStrip ("foo)").data ∧
    ¬ KeywordAsWord (pyStrip ("foo)").data) ∧
    Query._build_sql ("foo)").data [("x", (5 : Nat))] =
      (("SELECT * FROM foo)(%s)").data, [5]) :=
  ⟨by decide, by decide, by decide,
   c10_closing_paren_still_routine ("foo)").data [("x", (5 : Nat))]
     (by decide) (by decide) (by decide)⟩
